import Mathlib

/-!
Verification of the batch-mutation core of a Postgres adapter schema
(`PgSchema.delete` and `PgSchema.update` in `src/schema.rs`).

The embedding models:
* the query builder (`sqlx::QueryBuilder`) as an accumulating SQL string
  plus an ordered list of bound parameters — every operation the builder
  exposes appends; a bound value emits the placeholder for the next
  positional parameter;
* the predicate compiler (`write_where_clause`, a module of this
  repository whose body is not part of the visible sources) from the
  specification of the match-to-SQL mapping;
* the column/table metadata helpers (`TableToSql`, `ColumnsToSql`, `As`,
  `SnakeCase` from the adapter interface crate) from the specification;
* execution against a connection or transaction as a caller-supplied
  function from a prepared statement to success or a typed error, with the
  trace of actions issued against the connection made explicit.
-/

namespace ClinvoicePg

/-- A value bound as a positional SQL parameter (identity values are
64-bit integers; update tuples may also carry textual fields). -/
inductive Value where
  | int (n : Int)
  | text (t : String)
deriving DecidableEq

/-- The query-assembler state: accumulated SQL text plus the ordered list
of bound parameters, mirroring `sqlx::QueryBuilder`. Placeholders and the
parameter list stay in 1:1 positional correspondence. -/
structure QueryBuilder where
  sql : String
  params : List Value
deriving DecidableEq

/-- Mirror of `QueryBuilder::new`: start from an initial SQL fragment with
no bound parameters. -/
def QueryBuilder.new (s : String) : QueryBuilder :=
  ⟨s, []⟩

/-- Mirror of `QueryBuilder::push`: append raw SQL text. -/
def QueryBuilder.push (q : QueryBuilder) (s : String) : QueryBuilder :=
  { q with sql := q.sql ++ s }

/-- Mirror of `QueryBuilder::push_bind`: append the placeholder for the
next positional parameter and record the bound value. -/
def QueryBuilder.pushBind (q : QueryBuilder) (v : Value) : QueryBuilder :=
  ⟨q.sql ++ "$" ++ toString (q.params.length + 1), q.params ++ [v]⟩

/-- A prepared statement: the SQL text together with its bound parameters
(the result of `QueryBuilder::prepare`/`build`). -/
abbrev Statement := QueryBuilder

/-- Mirror of `prepare`: freeze the builder into the statement handed to
the executor. -/
def QueryBuilder.prepare (q : QueryBuilder) : Statement :=
  q

/-- Keyword fragment constant mirroring the adapter-crate constant `sql::DELETE`. -/
def sqlDelete : String := "DELETE"

/-- Keyword fragment constant mirroring the adapter-crate constant `sql::FROM`. -/
def sqlFrom : String := " FROM "

/-- Keyword fragment constant mirroring the adapter-crate constant `sql::WHERE`. -/
def sqlWhere : String := " WHERE "

/-- Keyword fragment constant mirroring the adapter-crate constant `sql::UPDATE`. -/
def sqlUpdate : String := "UPDATE "

/-- Keyword fragment constant mirroring the adapter-crate constant `sql::SET`. -/
def sqlSet : String := " SET "

/-- Keyword fragment constant mirroring the adapter-crate constant `sql::AS`. -/
def sqlAs : String := " AS "

/-- Modelled from the spec: the match-expression tree (the `Match` type of
the filter crate) — a recursive filter grammar with exact-value, range,
connective and wildcard variants, compiled to a boolean SQL fragment. -/
inductive Match where
  | always
  | equalTo (v : Value)
  | inRange (lo hi : Value)
  | and (children : List Match)
  | or (children : List Match)
  | not (child : Match)

/-- Mirror of `Match::from` on an identity value: an exact-value match. -/
def Match.ofId (i : Int) : Match :=
  .equalTo (.int i)

/-- Qualify a column name with an alias context; the empty alias context
leaves the column name bare. -/
def qualify (al col : String) : String :=
  if al = "" then col else al ++ "." ++ col

mutual

/-- Modelled from the spec: the predicate compiler. An exact value compiles
to an equality on the qualified column binding one parameter; a range to a
`BETWEEN` binding low/high in order; `AND`/`OR` compile each child into its
own parenthesized fragment joined by the connective, with the empty
conjunction/disjunction compiling to the constant-true/constant-false
fragment; `NOT` wraps a compiled child. Parameters are registered in
emission order. -/
def compileMatch (al col : String) : Match → QueryBuilder → QueryBuilder
  | .always, q => q.push "true"
  | .equalTo v, q => (q.push (qualify al col ++ " = ")).pushBind v
  | .inRange lo hi, q =>
      ((((q.push ("(" ++ qualify al col ++ " BETWEEN ")).pushBind lo).push " AND ").pushBind hi).push ")"
  | .and [], q => q.push "true"
  | .and (c :: cs), q =>
      compileChain " AND " al col cs ((compileMatch al col c (q.push "(")).push ")")
  | .or [], q => q.push "false"
  | .or (c :: cs), q =>
      compileChain " OR " al col cs ((compileMatch al col c (q.push "(")).push ")")
  | .not c, q => (compileMatch al col c (q.push "NOT (")).push ")"

/-- Modelled from the spec: the tail of an `AND`/`OR` chain — each further
child is compiled into its own parenthesized fragment preceded by the
joining connective. -/
def compileChain (sep al col : String) : List Match → QueryBuilder → QueryBuilder
  | [], q => q
  | c :: cs, q =>
      compileChain sep al col cs ((compileMatch al col c ((q.push sep).push "(")).push ")")

end

/-- Modelled from the spec: the write context of the where-clause writer;
its default state is the one that introduces the `WHERE` keyword. -/
inductive WriteContext where
  | beforeWhereClause
  | inWhereCondition
deriving DecidableEq

instance : Inhabited WriteContext :=
  ⟨.beforeWhereClause⟩

/-- Keyword introduced by a write context. -/
def WriteContext.keyword : WriteContext → String
  | .beforeWhereClause => sqlWhere
  | .inWhereCondition => " AND "

/-- Modelled from the spec: `PgSchema::write_where_clause` (the
`write_where_clause` module of this repository, whose body is outside the
visible sources) — appends the context keyword and then the compiled
boolean fragment of the match over the given alias context and column. -/
def writeWhereClause (ctx : WriteContext) (al col : String) (m : Match) (q : QueryBuilder) :
    QueryBuilder :=
  compileMatch al col m (q.push ctx.keyword)

/-- Modelled from the spec: static table metadata supplied by each entity
adapter through the `TableToSql` interface — a table name and a default
alias. -/
structure TableDescriptor where
  name : String
  defaultAlias : String
deriving DecidableEq

/-- An action issued against the caller connection or transaction. The
batch operations only ever execute prepared statements; commit and
rollback are listed so that their absence from every trace is a theorem,
not a modelling artifact. -/
inductive DbAction where
  | exec (s : Statement)
  | commit
  | rollback
deriving DecidableEq

/-- The `Or`-of-exact-value match tree `delete` builds over its ids
(`Match::Or(peekable_entities.map(Match::from).collect())`). -/
def deleteMatch (ids : List Int) : Match :=
  .or (ids.map Match.ofId)

/-- The statement `delete` builds for a non-empty id sequence:
`DELETE FROM <table>` followed by the where clause written from the
default context over the bare column `id` and the OR match tree. -/
def deleteStatement (d : TableDescriptor) (ids : List Int) : Statement :=
  let q := QueryBuilder.new sqlDelete
  let q := (q.push sqlFrom).push d.name
  let q := writeWhereClause default "" "id" (deleteMatch ids) q
  q.prepare

/-- Mirror of `PgSchema::delete`: peek the id iterator and return success
immediately when it is empty; otherwise build the delete statement,
execute it once against the connection, propagate an execution error via
`?`, and return unit on success. The first component is the trace of
actions issued against the connection. -/
def deleteRun (execute : Statement → Except String Unit) (d : TableDescriptor)
    (ids : List Int) : List DbAction × Except String Unit :=
  if ids = [] then
    ([], Except.ok ())
  else
    ([DbAction.exec (deleteStatement d ids)],
      (execute (deleteStatement d ids)).bind fun _ => Except.ok ())

/-- Modelled from the spec: ordered column metadata supplied through the
`ColumnsToSql` interface — the table name and default alias of the target
table, the ordered list of its columns, and the key column(s) equated
between the target and the derived values table. -/
structure ColumnDescriptor where
  tableName : String
  defaultAlias : String
  columns : List String
  keyColumns : List String
deriving DecidableEq

/-- Modelled from the spec: `SnakeCase::from((base, tail))` — the fixed
deterministic word join with an underscore. -/
def snakeCase (base tail : String) : String :=
  base ++ "_" ++ tail

/-- The derived-table alias `update` computes:
`SnakeCase::from((DEFAULT_ALIAS, 'V'))`. -/
def updateValuesAlias (cols : ColumnDescriptor) : String :=
  snakeCase cols.defaultAlias "V"

/-- Mirror of the display of `As(name, alias)`: the aliased identifier. -/
def renderAs (name al : String) : String :=
  name ++ sqlAs ++ al

/-- Push a first list item and then the remaining items each preceded by
the separator (the tail of a separated list). -/
def QueryBuilder.pushSepTail (q : QueryBuilder) (sep : String) : List String → QueryBuilder
  | [] => q
  | x :: xs => (((q.push sep).push x)).pushSepTail sep xs

/-- Mirror of a separated push of a list of fragments, as the query
builder exposes for comma-separated lists. -/
def QueryBuilder.pushSeparated (q : QueryBuilder) (sep : String) : List String → QueryBuilder
  | [] => q
  | x :: xs => (q.push x).pushSepTail sep xs

/-- The non-key columns of the descriptor paired with their derived-table
counterpart, in descriptor order: the items of the `SET` clause. -/
def setPairs (cols : ColumnDescriptor) (va : String) : List String :=
  (cols.columns.filter fun c => !(cols.keyColumns.contains c)).map
    fun c => c ++ " = " ++ va ++ "." ++ c

/-- The key-column join items of the update `WHERE` clause, equating each
key column between the target alias and the derived alias. -/
def joinPairs (cols : ColumnDescriptor) (al va : String) : List String :=
  cols.keyColumns.map fun k => al ++ "." ++ k ++ " = " ++ va ++ "." ++ k

/-- Modelled from the spec: `ColumnsToSql::push_set` — every non-key
column assigned from the corresponding derived column, comma-separated. -/
def pushSetTo (cols : ColumnDescriptor) (q : QueryBuilder) (va : String) : QueryBuilder :=
  q.pushSeparated ", " (setPairs cols va)

/-- Modelled from the spec: `ColumnsToSql::push_columns` — the descriptor
columns in descriptor order, comma-separated. -/
def pushColumnsTo (cols : ColumnDescriptor) (q : QueryBuilder) : QueryBuilder :=
  q.pushSeparated ", " cols.columns

/-- Modelled from the spec: `ColumnsToSql::push_update_where` — the join
predicate equating the key column(s) between target and derived alias. -/
def pushUpdateWhereTo (cols : ColumnDescriptor) (q : QueryBuilder) (al va : String) :
    QueryBuilder :=
  q.pushSeparated " AND " (joinPairs cols al va)

/-- One operation a populate callback can perform on the builder. The
callback is caller-controlled, but the builder only exposes appending raw
text and binding parameters, so every callback is a sequence of such
pushes. -/
inductive PushOp where
  | text (s : String)
  | bind (v : Value)
deriving DecidableEq

/-- Run a populate callback, i.e. apply its pushes in order. -/
def applyOps (ops : List PushOp) (q : QueryBuilder) : QueryBuilder :=
  ops.foldl (fun q op => match op with | .text s => q.push s | .bind v => q.pushBind v) q

/-- The statement `update` builds: `UPDATE <table> AS <alias> SET
<assignments> FROM (<populate output>) AS <derived-alias> (<columns>)
WHERE <key join>`, mirroring the push sequence of `PgSchema::update`. -/
def updateStatement (cols : ColumnDescriptor) (ops : List PushOp) : Statement :=
  let q := QueryBuilder.new sqlUpdate
  let q := q.push (renderAs cols.tableName cols.defaultAlias)
  let q := q.push sqlSet
  let va := updateValuesAlias cols
  let q := pushSetTo cols q va
  let q := (q.push sqlFrom).push "("
  let q := applyOps ops q
  let q := (((q.push ")").push sqlAs).push va).push " ("
  let q := pushColumnsTo cols q
  let q := (q.push ")").push sqlWhere
  let q := pushUpdateWhereTo cols q cols.defaultAlias va
  q.prepare

/-- Mirror of `PgSchema::update`: build the update statement, execute it
once against the transaction, propagate an execution error via `?`, and
return unit on success. The first component is the trace of actions
issued against the transaction. -/
def updateRun (execute : Statement → Except String Unit) (cols : ColumnDescriptor)
    (ops : List PushOp) : List DbAction × Except String Unit :=
  ([DbAction.exec (updateStatement cols ops)],
    (execute (updateStatement cols ops)).bind fun _ => Except.ok ())

/-- Rendering of one exact-value equality term of an OR chain, following
the spec: the qualified column compared against the next positional
placeholder, parenthesized. -/
def eqTerm (al col : String) (n : Nat) : String :=
  "(" ++ (qualify al col ++ " = ") ++ "$" ++ toString n ++ ")"

/-- Rendering of the tail of an OR chain following the spec: each further
term preceded by the `OR` joiner, with consecutively numbered
placeholders. -/
def orTail (al col : String) (n : Nat) : List Int → String
  | [] => ""
  | _ :: rest => " OR " ++ eqTerm al col n ++ orTail al col (n + 1) rest

/-- Rendering of a whole OR-of-equalities fragment following the spec: one
equality term per id in input order; the empty disjunction is the
constant-false fragment. -/
def orFrag (al col : String) (n : Nat) : List Int → String
  | [] => "false"
  | _ :: rest => eqTerm al col n ++ orTail al col (n + 1) rest

/-- Rendering of the tail of a separated list (each item preceded by the
separator). -/
def joinSepTail (sep : String) : List String → String
  | [] => ""
  | x :: xs => sep ++ x ++ joinSepTail sep xs

/-- Rendering of a separated list of fragments, following the spec words
for comma-separated column and assignment lists. -/
def joinSep (sep : String) : List String → String
  | [] => ""
  | x :: xs => x ++ joinSepTail sep xs

/-- Text a populate callback contributes to the statement, given the
number of parameters already bound: raw text verbatim, and for each bound
value the next positional placeholder. -/
def opsText : List PushOp → Nat → String
  | [], _ => ""
  | .text s :: rest, k => s ++ opsText rest k
  | .bind _ :: rest, k => ("$" ++ toString (k + 1)) ++ opsText rest (k + 1)

/-- Parameters a populate callback binds, in emission order. -/
def opsParams : List PushOp → List Value
  | [] => []
  | .text _ :: rest => opsParams rest
  | .bind v :: rest => v :: opsParams rest

/-- The children of a disjunction node (and the empty list for any other
variant). -/
def Match.orChildren : Match → List Match
  | .or cs => cs
  | _ => []

/-- The update statement as the spec words it: `UPDATE <table> AS <alias>
SET <col = derived.col, ...> FROM (<populate-produced tuples>) AS
<derived-alias>(<columns in descriptor order>) WHERE <join predicate on
the key column(s)>`, with the clauses in exactly that order. -/
def specUpdateSql (cols : ColumnDescriptor) (ops : List PushOp) : String :=
  sqlUpdate ++ (cols.tableName ++ sqlAs ++ cols.defaultAlias) ++ sqlSet ++
    joinSep ", " (setPairs cols (updateValuesAlias cols)) ++ sqlFrom ++ "(" ++
    opsText ops 0 ++ ")" ++ sqlAs ++ updateValuesAlias cols ++ " (" ++
    joinSep ", " cols.columns ++ ")" ++ sqlWhere ++
    joinSep " AND " (joinPairs cols cols.defaultAlias (updateValuesAlias cols))

@[simp] theorem QueryBuilder.sql_push (q : QueryBuilder) (s : String) :
    (q.push s).sql = q.sql ++ s := rfl

@[simp] theorem QueryBuilder.params_push (q : QueryBuilder) (s : String) :
    (q.push s).params = q.params := rfl

@[simp] theorem QueryBuilder.sql_pushBind (q : QueryBuilder) (v : Value) :
    (q.pushBind v).sql = q.sql ++ "$" ++ toString (q.params.length + 1) := rfl

@[simp] theorem QueryBuilder.params_pushBind (q : QueryBuilder) (v : Value) :
    (q.pushBind v).params = q.params ++ [v] := rfl

theorem writeContext_default : (default : WriteContext) = .beforeWhereClause := rfl

theorem pushSepTail_char (sep : String) (items : List String) (q : QueryBuilder) :
    q.pushSepTail sep items = ⟨q.sql ++ joinSepTail sep items, q.params⟩ := by
  induction items generalizing q with
  | nil => simp [QueryBuilder.pushSepTail, joinSepTail]
  | cons x xs ih =>
      simp [QueryBuilder.pushSepTail, joinSepTail, ih, QueryBuilder.push, String.append_assoc]

theorem pushSeparated_char (sep : String) (items : List String) (q : QueryBuilder) :
    q.pushSeparated sep items = ⟨q.sql ++ joinSep sep items, q.params⟩ := by
  cases items with
  | nil => simp [QueryBuilder.pushSeparated, joinSep]
  | cons x xs =>
      simp [QueryBuilder.pushSeparated, joinSep, pushSepTail_char, QueryBuilder.push,
        String.append_assoc]

theorem applyOps_char (ops : List PushOp) (q : QueryBuilder) :
    applyOps ops q = ⟨q.sql ++ opsText ops q.params.length, q.params ++ opsParams ops⟩ := by
  induction ops generalizing q with
  | nil => simp [applyOps, opsText, opsParams]
  | cons op rest ih =>
      cases op with
      | text s =>
          have h : applyOps (.text s :: rest) q = applyOps rest (q.push s) := rfl
          rw [h, ih]
          simp [opsText, opsParams, String.append_assoc]
      | bind v =>
          have h : applyOps (.bind v :: rest) q = applyOps rest (q.pushBind v) := rfl
          rw [h, ih]
          simp [opsText, opsParams, String.append_assoc]

theorem compileChain_ofIds (al col : String) (vs : List Int) (q : QueryBuilder) :
    compileChain " OR " al col (vs.map Match.ofId) q =
      ⟨q.sql ++ orTail al col (q.params.length + 1) vs, q.params ++ vs.map Value.int⟩ := by
  induction vs generalizing q with
  | nil => simp [compileChain, orTail]
  | cons v rest ih =>
      have h : compileChain " OR " al col ((v :: rest).map Match.ofId) q =
          compileChain " OR " al col (rest.map Match.ofId)
            ((compileMatch al col (Match.ofId v) ((q.push " OR ").push "(")).push ")") := rfl
      rw [h, ih]
      simp [-String.reduceAppend, Match.ofId, compileMatch, orTail, eqTerm, QueryBuilder.push,
        QueryBuilder.pushBind, String.append_assoc]

theorem compileMatch_deleteMatch (al col : String) (ids : List Int) (q : QueryBuilder) :
    compileMatch al col (deleteMatch ids) q =
      ⟨q.sql ++ orFrag al col (q.params.length + 1) ids, q.params ++ ids.map Value.int⟩ := by
  cases ids with
  | nil => simp [deleteMatch, compileMatch, orFrag, QueryBuilder.push]
  | cons v rest =>
      have h : compileMatch al col (deleteMatch (v :: rest)) q =
          compileChain " OR " al col (rest.map Match.ofId)
            ((compileMatch al col (Match.ofId v) (q.push "(")).push ")") := rfl
      rw [h, compileChain_ofIds]
      simp [-String.reduceAppend, Match.ofId, compileMatch, orFrag, eqTerm, QueryBuilder.push,
        QueryBuilder.pushBind, String.append_assoc]

theorem deleteStatement_char (d : TableDescriptor) (ids : List Int) :
    deleteStatement d ids =
      ⟨"DELETE" ++ " FROM " ++ d.name ++ " WHERE " ++ orFrag "" "id" 1 ids,
        ids.map Value.int⟩ := by
  unfold deleteStatement writeWhereClause
  rw [writeContext_default]
  dsimp only
  rw [compileMatch_deleteMatch]
  simp [-String.reduceAppend, QueryBuilder.new, QueryBuilder.push, QueryBuilder.prepare,
    WriteContext.keyword, sqlDelete, sqlFrom, sqlWhere, String.append_assoc]

theorem updateStatement_char (cols : ColumnDescriptor) (ops : List PushOp) :
    updateStatement cols ops = ⟨specUpdateSql cols ops, opsParams ops⟩ := by
  unfold updateStatement specUpdateSql pushSetTo pushColumnsTo pushUpdateWhereTo renderAs
  dsimp only
  rw [pushSeparated_char, applyOps_char, pushSeparated_char, pushSeparated_char]
  simp [-String.reduceAppend, QueryBuilder.new, QueryBuilder.push, QueryBuilder.prepare,
    String.append_assoc]

/-- Sanity rendering of the concrete update scenario: descriptor columns
`id, name, rate` with key `id` and one populated row. -/
theorem update_concrete_rendering :
    (updateStatement ⟨"jobs", "J", ["id", "name", "rate"], ["id"]⟩
        [.text "VALUES (", .bind (.int 5), .text ", ", .bind (.text "alice"), .text ", ",
          .bind (.text "12.5"), .text ")"]).sql =
      "UPDATE jobs AS J SET name = J_V.name, rate = J_V.rate FROM (VALUES ($1, $2, $3)) AS J_V (id, name, rate) WHERE J.id = J_V.id" :=
  rfl

/-- C1: for every non-empty sequence of ids, `delete` executes exactly one
statement — `DELETE FROM <table> WHERE <OR chain>` — built by feeding the
predicate compiler the OR-of-exact-value match tree over the ids; its
WHERE fragment holds one equality term per value with consecutively
numbered placeholders, and the bound parameters are the ids in input
iteration order. -/
theorem delete_single_or_chain_statement (execF : Statement → Except String Unit)
    (d : TableDescriptor) (ids : List Int) (h : ids ≠ []) :
    (deleteRun execF d ids).1 =
      [DbAction.exec ⟨"DELETE" ++ " FROM " ++ d.name ++ " WHERE " ++ orFrag "" "id" 1 ids,
        ids.map Value.int⟩] ∧
      deleteMatch ids = Match.or (ids.map Match.ofId) := by
  refine ⟨?_, rfl⟩
  unfold deleteRun
  rw [if_neg h, deleteStatement_char]

/-- Witness for C1 at the concrete scenario of the spec: ids `3, 7`
against the `jobs` table. -/
theorem delete_single_or_chain_statement_witness :
    (deleteRun (fun _ => Except.ok ()) ⟨"jobs", "J"⟩ [3, 7]).1 =
      [DbAction.exec ⟨"DELETE FROM jobs WHERE (id = $1) OR (id = $2)",
        [Value.int 3, Value.int 7]⟩] := by
  rw [(delete_single_or_chain_statement (fun _ => Except.ok ()) ⟨"jobs", "J"⟩ [3, 7]
    (by decide)).1]
  rfl

/-- C2: for every column descriptor and populate callback, `update`
executes exactly one statement whose clauses appear in the order `UPDATE
<table> AS <alias> SET <non-key assignments from the derived alias> FROM
(<populate output>) AS <derived-alias> (<columns in descriptor order>)
WHERE <key-column join>`, with the bound parameters being exactly those
the callback pushed, in order. -/
theorem update_single_statement_shape (execF : Statement → Except String Unit)
    (cols : ColumnDescriptor) (ops : List PushOp) :
    (updateRun execF cols ops).1 =
      [DbAction.exec ⟨specUpdateSql cols ops, opsParams ops⟩] := by
  unfold updateRun
  rw [updateStatement_char]

/-- C3: `delete` on an empty id sequence executes zero statements against
the connection and returns success immediately. -/
theorem delete_empty_no_statement (execF : Statement → Except String Unit)
    (d : TableDescriptor) :
    deleteRun execF d [] = ([], Except.ok ()) :=
  rfl

/-- C4: a populate callback contributing zero tuples still yields a single
executed statement whose derived-values region is empty and binds no
parameters, and when the store accepts that statement the call returns
success rather than an error. -/
theorem update_empty_values_succeeds (execF : Statement → Except String Unit)
    (cols : ColumnDescriptor)
    (h : execF (updateStatement cols []) = Except.ok ()) :
    (updateRun execF cols []).1 = [DbAction.exec (updateStatement cols [])] ∧
      opsText [] 0 = "" ∧ opsParams [] = ([] : List Value) ∧
      (updateRun execF cols []).2 = Except.ok () := by
  refine ⟨rfl, rfl, rfl, ?_⟩
  unfold updateRun
  rw [h]
  rfl

/-- Witness for C4: an accepting store and a three-column descriptor with
an empty populate callback. -/
theorem update_empty_values_succeeds_witness :
    (updateRun (fun _ => Except.ok ()) ⟨"jobs", "J", ["id", "name"], ["id"]⟩ []).2 =
      Except.ok () :=
  (update_empty_values_succeeds (fun _ => Except.ok ())
    ⟨"jobs", "J", ["id", "name"], ["id"]⟩ rfl).2.2.2

/-- C5: the derived-table alias is the fixed deterministic snake-case
transformation of the descriptor default alias (underscore plus `V`) and
always differs from the target table alias. -/
theorem update_derived_alias_distinct (cols : ColumnDescriptor) :
    updateValuesAlias cols = cols.defaultAlias ++ "_" ++ "V" ∧
      updateValuesAlias cols ≠ cols.defaultAlias := by
  refine ⟨rfl, fun h => ?_⟩
  have hlen := congrArg String.length h
  simp only [updateValuesAlias, snakeCase] at hlen
  rw [String.length_append, String.length_append] at hlen
  have h1 : String.length "_" = 1 := rfl
  have h2 : String.length "V" = 1 := rfl
  rw [h1, h2] at hlen
  omega

/-- Witness for C5 at a concrete descriptor. -/
theorem update_derived_alias_distinct_witness :
    updateValuesAlias ⟨"jobs", "J", ["id"], ["id"]⟩ = "J_V" ∧
      updateValuesAlias ⟨"jobs", "J", ["id"], ["id"]⟩ ≠ "J" := by
  have h := update_derived_alias_distinct ⟨"jobs", "J", ["id"], ["id"]⟩
  exact ⟨rfl, h.2⟩

/-- C6 counterexample: calling `delete` with an empty id sequence issues
zero statements, refuting that each batch-operation call issues exactly
one statement. -/
theorem batch_single_statement_counterexample :
    ¬ (deleteRun (fun _ => Except.ok ()) ⟨"jobs", "J"⟩ []).1.length = 1 := by
  decide

/-- C6 amended: each batch operation issues at most one statement —
exactly one for `update` and for `delete` with non-empty ids, zero for
`delete` with empty ids — never issues a commit or rollback, and on
execution failure the single error value of the store is returned. -/
theorem batch_ops_one_statement_no_commit (execF : Statement → Except String Unit)
    (d : TableDescriptor) (ids : List Int) (cols : ColumnDescriptor) (ops : List PushOp) :
    ((deleteRun execF d ids).1 = [] ∧ ids = [] ∨
        (deleteRun execF d ids).1 = [DbAction.exec (deleteStatement d ids)] ∧ ids ≠ []) ∧
      (updateRun execF cols ops).1 = [DbAction.exec (updateStatement cols ops)] ∧
      DbAction.commit ∉ (deleteRun execF d ids).1 ∧
      DbAction.rollback ∉ (deleteRun execF d ids).1 ∧
      DbAction.commit ∉ (updateRun execF cols ops).1 ∧
      DbAction.rollback ∉ (updateRun execF cols ops).1 ∧
      (∀ e, execF (deleteStatement d ids) = Except.error e → ids ≠ [] →
        (deleteRun execF d ids).2 = Except.error e) ∧
      (∀ e, execF (updateStatement cols ops) = Except.error e →
        (updateRun execF cols ops).2 = Except.error e) := by
  have hupdate : ∀ e, execF (updateStatement cols ops) = Except.error e →
      (updateRun execF cols ops).2 = Except.error e := by
    intro e he
    unfold updateRun
    rw [he]
    rfl
  by_cases hids : ids = []
  · subst hids
    refine ⟨Or.inl ⟨rfl, rfl⟩, rfl, ?_, ?_, ?_, ?_, ?_, hupdate⟩
    · simp [deleteRun]
    · simp [deleteRun]
    · simp [updateRun]
    · simp [updateRun]
    · intro e _ hne
      exact absurd rfl hne
  · have htrace : (deleteRun execF d ids).1 = [DbAction.exec (deleteStatement d ids)] := by
      unfold deleteRun
      rw [if_neg hids]
    refine ⟨Or.inr ⟨htrace, hids⟩, rfl, ?_, ?_, ?_, ?_, ?_, hupdate⟩
    · rw [htrace]; simp
    · rw [htrace]; simp
    · simp [updateRun]
    · simp [updateRun]
    · intro e he _
      unfold deleteRun
      rw [if_neg hids, he]
      rfl

/-- Witness for C6 amended: a failing store against `update` returns the
single error value. -/
theorem batch_ops_one_statement_no_commit_witness :
    (updateRun (fun _ => Except.error "boom") ⟨"jobs", "J", ["id", "name"], ["id"]⟩ []).2 =
      Except.error "boom" :=
  (batch_ops_one_statement_no_commit (fun _ => Except.error "boom") ⟨"jobs", "J"⟩ [3]
      ⟨"jobs", "J", ["id", "name"], ["id"]⟩ []).2.2.2.2.2.2.2 "boom" rfl

/-- C7 counterexample: when the store rejects the delete statement with
the error `boom`, `delete` returns exactly that error; the table name
`jobs` is not attached to it (it is not even a substring), refuting the
claim that the failure is mapped into an error carrying the table name. -/
theorem delete_error_no_table_name_counterexample :
    (deleteRun (fun _ => Except.error "boom") ⟨"jobs", "J"⟩ [3]).2 = Except.error "boom" ∧
      ¬ List.IsInfix "jobs".data "boom".data :=
  ⟨rfl, by decide⟩

/-- C7 amended: when execution of the delete statement fails, `delete`
propagates the lower-level typed error unchanged, reported once to the
caller — a single execution, no retry. -/
theorem delete_propagates_execution_error (execF : Statement → Except String Unit)
    (d : TableDescriptor) (ids : List Int) (e : String) (h : ids ≠ [])
    (he : execF (deleteStatement d ids) = Except.error e) :
    deleteRun execF d ids = ([DbAction.exec (deleteStatement d ids)], Except.error e) := by
  unfold deleteRun
  rw [if_neg h, he]
  rfl

/-- Witness for C7 amended at a concrete failing store. -/
theorem delete_propagates_execution_error_witness :
    deleteRun (fun _ => Except.error "down") ⟨"jobs", "J"⟩ [5] =
      ([DbAction.exec (deleteStatement ⟨"jobs", "J"⟩ [5])], Except.error "down") :=
  delete_propagates_execution_error (fun _ => Except.error "down") ⟨"jobs", "J"⟩ [5] "down"
    (by decide) rfl

/-- C8: `update` validates nothing about the populate output against the
descriptor: for every callback the statement is built and executed, the
result is exactly the verdict of the store, and in particular a callback
whose tuple arity (two values) disagrees with the descriptor (three
columns) still reaches execution and succeeds whenever the store accepts
the statement. -/
theorem update_no_arity_validation (execF : Statement → Except String Unit)
    (cols : ColumnDescriptor) (ops : List PushOp) :
    (updateRun execF cols ops).1 = [DbAction.exec (updateStatement cols ops)] ∧
      (updateRun execF cols ops).2 = execF (updateStatement cols ops) ∧
      (updateRun (fun _ => Except.ok ()) ⟨"jobs", "J", ["id", "name", "rate"], ["id"]⟩
          [.text "VALUES (", .bind (.int 5), .text ", ", .bind (.text "alice"),
            .text ")"]).2 =
        Except.ok () := by
  refine ⟨rfl, ?_, rfl⟩
  unfold updateRun
  cases hx : execF (updateStatement cols ops) with
  | ok u => cases u; rfl
  | error e => rfl

/-- C9: `delete` deduplicates nothing — the OR tree handed to the
predicate compiler has exactly one exact-value child per element of the
input, in input order, so an input with repeated ids yields more equality
terms than it has distinct values. -/
theorem delete_no_dedup (ids : List Int) :
    (deleteMatch ids).orChildren = ids.map Match.ofId ∧
      (deleteMatch ids).orChildren.length = ids.length ∧
      (¬ ids.Nodup → ids.dedup.length < (deleteMatch ids).orChildren.length) := by
  refine ⟨rfl, by simp [deleteMatch, Match.orChildren], ?_⟩
  intro h
  have hsub := List.dedup_sublist ids
  have hlt : ids.dedup.length < ids.length := by
    rcases Nat.lt_or_ge ids.dedup.length ids.length with hl | hg
    · exact hl
    · exact absurd (List.dedup_eq_self.mp (hsub.eq_of_length
        (Nat.le_antisymm hsub.length_le hg))) h
  simpa [deleteMatch, Match.orChildren] using hlt

/-- Witness for C9 at the repeated input `3, 3`. -/
theorem delete_no_dedup_witness :
    ([3, 3] : List Int).dedup.length < (deleteMatch [3, 3]).orChildren.length :=
  (delete_no_dedup [3, 3]).2.2 (by decide)

/-- C10: the delete predicate is always over the bare literal column `id`
with the empty alias context (each term renders as `(id = $n)`, never over
a descriptor-supplied or aliased column), and the statement depends on the
descriptor only through the table name: descriptors agreeing on the name
yield the identical statement. -/
theorem delete_fixed_id_column (d : TableDescriptor) (ids : List Int) :
    (deleteStatement d ids).sql =
        "DELETE" ++ " FROM " ++ d.name ++ " WHERE " ++ orFrag "" "id" 1 ids ∧
      qualify "" "id" = "id" ∧
      eqTerm "" "id" 1 = "(id = $1)" ∧
      ∀ d2 : TableDescriptor, d2.name = d.name →
        deleteStatement d2 ids = deleteStatement d ids := by
  refine ⟨?_, rfl, rfl, ?_⟩
  · rw [deleteStatement_char]
  · intro d2 hname
    rw [deleteStatement_char, deleteStatement_char, hname]

/-- Witness for C10: two descriptors for `jobs` with different default
aliases produce the identical delete statement. -/
theorem delete_fixed_id_column_witness :
    deleteStatement ⟨"jobs", "Q"⟩ [3, 7] = deleteStatement ⟨"jobs", "J"⟩ [3, 7] :=
  (delete_fixed_id_column ⟨"jobs", "J"⟩ [3, 7]).2.2.2 ⟨"jobs", "Q"⟩ rfl

end ClinvoicePg
